import Mathlib

/-!
Verification of `zipline/finance/risk/risk.py`.

The development embeds the risk module shallowly:

* Timestamps on the treasury side are integers counting seconds since the
  epoch (Python `datetime` values support `replace(hour=0, ...)`, subtraction
  producing `timedelta`, and comparison; only those operations are used by
  `choose_treasury`, so seconds-since-epoch is a faithful carrier).
  `timedelta.days` is floor division by 86400, matching `Int.fdiv`.
* Treasury rates are rationals (an exact idealization of the floats used by
  the code).
* The calendar side (`periods_in_range`) works on year/month/day dates,
  mirroring `datetime.date`, `dateutil.relativedelta(months=k)` (which clamps
  the day to the target month length) and `timedelta(days=1)` subtraction.
* The pandas curve table is an association list ordered by date; pandas
  `searchsorted` (side left, on a sorted index) is the length of the strictly
  smaller prefix, and the Python slice `xs[i-1::-1]` is embedded literally,
  including its behaviour at `i = 0` where the slice starts at the LAST
  element.
-/

set_option maxHeartbeats 1000000

namespace ZiplineRisk

/-- The ten canonical treasury duration buckets, shortest to longest
(`TREASURY_DURATIONS` in the source). -/
inductive TreasuryDuration where
  | oneMonth | threeMonth | sixMonth
  | oneYear | twoYear | threeYear | fiveYear
  | sevenYear | tenYear | thirtyYear
deriving DecidableEq, Repr, Fintype

/-- Position of a duration in `TREASURY_DURATIONS`
(`TREASURY_DURATIONS.index(d)` in the source). -/
def durationIndex : TreasuryDuration → Nat
  | .oneMonth => 0 | .threeMonth => 1 | .sixMonth => 2
  | .oneYear => 3 | .twoYear => 4 | .threeYear => 5 | .fiveYear => 6
  | .sevenYear => 7 | .tenYear => 8 | .thirtyYear => 9

/-- Inverse of `durationIndex` (out-of-range indices map to the last bucket;
they are never used). -/
def durationOfIndex : Nat → TreasuryDuration
  | 0 => .oneMonth | 1 => .threeMonth | 2 => .sixMonth
  | 3 => .oneYear | 4 => .twoYear | 5 => .threeYear | 6 => .fiveYear
  | 7 => .sevenYear | 8 => .tenYear | _ => .thirtyYear

/-- The `TREASURY_DURATIONS` list of the source. -/
def TREASURY_DURATIONS : List TreasuryDuration :=
  [.oneMonth, .threeMonth, .sixMonth,
   .oneYear, .twoYear, .threeYear, .fiveYear,
   .sevenYear, .tenYear, .thirtyYear]

/-- One curve snapshot: a rate (or absence) per duration bucket. -/
abbrev Snapshot : Type := TreasuryDuration → Option ℚ

/-- The curve table: snapshots keyed by date (seconds since epoch),
ordered ascending by date (pandas DataFrame indexed by date). -/
abbrev CurveTable : Type := List (ℤ × Snapshot)

/-- `get_treasury_rate` of the source: look up the snapshot for `day` and scan
the duration buckets from `treasury_duration` toward longer tenors, returning
the first present rate.  The source indexes `treasury_curves[day]` directly
and is only called with days present in the table; a missing day yields
no rate here. -/
def get_treasury_rate (treasury_curves : CurveTable) (treasury_duration : TreasuryDuration)
    (day : ℤ) : Option ℚ :=
  match List.lookup day treasury_curves with
  | none => none
  | some curve => (TREASURY_DURATIONS.drop (durationIndex treasury_duration)).findSome? curve

/-- Index-based restatement of the duration-escalation scan, used in proofs. -/
def scanFrom (curve : Snapshot) (i : Nat) : Option ℚ :=
  if _h : i < 10 then
    match curve (durationOfIndex i) with
    | some r => some r
    | none => scanFrom curve (i + 1)
  else none
termination_by 10 - i
decreasing_by omega

/-- `search_day_distance` of the source.  The trading-calendar collaborator
`trading_day_distance` is external; it is passed in as a function `tdd`.
The source additionally asserts a returned distance is nonnegative. -/
def search_day_distance (tdd : ℤ → ℤ → Option ℤ) (end_date dt : ℤ) : Option ℤ :=
  tdd dt end_date

/-- Python `timedelta(end - start).days`: floor division of the elapsed
seconds by 86400. -/
def tdDays (start_date end_date : ℤ) : ℤ := (end_date - start_date).fdiv 86400

/-- `end_date.replace(hour=0, minute=0, second=0, microsecond=0)`:
truncate a timestamp to midnight of its day. -/
def midnightOf (t : ℤ) : ℤ := 86400 * t.fdiv 86400

/-- `select_treasury_duration` of the source. -/
def select_treasury_duration (start_date end_date : ℤ) : TreasuryDuration :=
  let td := tdDays start_date end_date
  if td ≤ 31 then .oneMonth
  else if td ≤ 93 then .threeMonth
  else if td ≤ 186 then .sixMonth
  else if td ≤ 366 then .oneYear
  else if td ≤ 365 * 2 + 1 then .twoYear
  else if td ≤ 365 * 3 + 1 then .threeYear
  else if td ≤ 365 * 5 + 2 then .fiveYear
  else if td ≤ 365 * 7 + 2 then .sevenYear
  else if td ≤ 365 * 10 + 2 then .tenYear
  else .thirtyYear

/-- pandas `index.searchsorted(v)` (side left) on a sorted index: the number
of leading entries strictly below `v`. -/
def searchsortedLeft (xs : List ℤ) (v : ℤ) : Nat :=
  (xs.takeWhile (fun d => decide (d < v))).length

/-- The Python slice `xs[i-1::-1]` for `0 ≤ i ≤ xs.length`: for `i ≥ 1` the
first `i` elements in reverse; for `i = 0` the start index `-1` denotes the
LAST element, so the whole list is traversed in reverse. -/
def sliceFromBackward (xs : List ℤ) (i : Nat) : List ℤ :=
  if i = 0 then xs.reverse else (xs.take i).reverse

/-- The date-regression loop of `choose_treasury`: walk the slice
`search_days[i-1::-1]` and return the first day carrying a usable rate,
together with that rate. -/
def regression_search (treasury_curves : CurveTable) (treasury_duration : TreasuryDuration)
    (end_day : ℤ) : Option (ℤ × ℚ) :=
  let search_days := treasury_curves.map Prod.fst
  let i := searchsortedLeft search_days end_day
  (sliceFromBackward search_days i).findSome? fun prev_day =>
    (get_treasury_rate treasury_curves treasury_duration prev_day).map fun r => (prev_day, r)

/-- The staleness-warning condition of `choose_treasury`:
`(search_dist is None or search_dist > 1) and search_days[0] <= end_day <= search_days[-1]`.
The head/last defaults are never exercised: a warning is only computed when
the regression found a day, hence the table is nonempty. -/
def stale_warning (tdd : ℤ → ℤ → Option ℤ) (search_days : List ℤ)
    (end_date end_day search_day : ℤ) : Bool :=
  let search_dist := search_day_distance tdd end_date search_day
  (search_dist.isNone || search_dist.any fun k => decide (1 < k))
    && (decide (search_days.headD end_day ≤ end_day)
        && decide (end_day ≤ search_days.getLastD end_day))

/-- Outcome of `choose_treasury`: either a pro-rated rate together with the
staleness-warning flag, or the fatal "no rate" exception carrying the
requested end date and duration that the source interpolates into its
message. -/
inductive ChooseResult where
  | ok (rate : ℚ) (warned : Bool)
  | unavailable (end_date : ℤ) (duration : TreasuryDuration)
deriving DecidableEq, Repr

/-- `choose_treasury` of the source.  `tdd` is the external trading-calendar
collaborator `trading.environment.trading_day_distance`. -/
def choose_treasury (tdd : ℤ → ℤ → Option ℤ) (treasury_curves : CurveTable)
    (start_date end_date : ℤ) : ChooseResult :=
  let treasury_duration := select_treasury_duration start_date end_date
  let end_day := midnightOf end_date
  let firstRate : Option ℚ :=
    if (List.lookup end_day treasury_curves).isSome then
      get_treasury_rate treasury_curves treasury_duration end_day
    else none
  match firstRate with
  | some rate =>
      ChooseResult.ok (rate * (tdDays start_date end_date + 1) / 365) false
  | none =>
      match regression_search treasury_curves treasury_duration end_day with
      | some (search_day, rate) =>
          ChooseResult.ok (rate * (tdDays start_date end_date + 1) / 365)
            (stale_warning tdd (treasury_curves.map Prod.fst) end_date end_day search_day)
      | none => ChooseResult.unavailable end_date treasury_duration

/-! ### Sortino ratio (`sortino_ratio` in the source) -/

/-- `((rets[rets < mar] - mar) ** 2).sum()`: the sum of squared deviations of
the returns strictly below the minimum acceptable return. -/
def downside_squares (rets : List ℚ) (mar : ℚ) : ℚ :=
  ((rets.filter fun r => decide (r < mar)).map fun r => (r - mar) ^ 2).sum

/-- Modelled from the spec: `tolerant_equals` lives in the external
`zipline.utils.math_utils` module (not part of this repository slice); the
spec defines "tolerantly zero" as equality to zero within a small fixed
numeric tolerance.  We fix the tolerance at `1/1000000` and, since the
downside deviation is a square root (hence nonnegative), test
`dr <= tolerance` equivalently as `dr^2 <= tolerance^2` on the rational
radicand. -/
def tolerantly_zero_sqrt (radicand : ℚ) : Bool :=
  decide (radicand ≤ (1 / 1000000) ^ 2)

/-- `sortino_ratio` of the source: `0.0` for an empty return series,
otherwise `dr = sqrt(downside.sum() / len(rets))`, `0.0` when `dr` is
tolerantly zero, else `(algorithm_period_return - mar) / dr`. -/
noncomputable def sortino_ratio (algorithm_returns : List ℚ)
    (algorithm_period_return mar : ℚ) : ℝ :=
  if algorithm_returns.length = 0 then 0
  else
    let radicand : ℚ := downside_squares algorithm_returns mar / (algorithm_returns.length : ℚ)
    if tolerantly_zero_sqrt radicand then 0
    else ((algorithm_period_return : ℝ) - (mar : ℝ)) / Real.sqrt (radicand : ℝ)

/-! ### Calendar dates and rolling periods -/

/-- A calendar date, as Python's `datetime.date`: the constructor of the
Python class validates `1 <= month <= 12` and `1 <= day <= daysInMonth`;
well-formedness is tracked by `Date.Valid` below. -/
structure Date where
  year : ℤ
  month : ℕ
  day : ℕ
deriving DecidableEq, Repr

/-- Gregorian leap year test. -/
def isLeap (y : ℤ) : Bool :=
  y % 4 = 0 && (y % 100 ≠ 0 || y % 400 = 0)

/-- Length of a calendar month. -/
def daysInMonth (y : ℤ) (m : ℕ) : ℕ :=
  if m = 2 then (if isLeap y then 29 else 28)
  else if m = 4 ∨ m = 6 ∨ m = 9 ∨ m = 11 then 30
  else 31

/-- The well-formedness invariant Python's `datetime.date` constructor
enforces. -/
def Date.Valid (d : Date) : Prop :=
  1 ≤ d.month ∧ d.month ≤ 12 ∧ 1 ≤ d.day ∧ d.day ≤ daysInMonth d.year d.month

instance (d : Date) : Decidable d.Valid := by
  unfold Date.Valid
  exact inferInstance

/-- Lexicographic comparison, as Python compares `datetime.date` values. -/
def Date.lt (a b : Date) : Prop :=
  a.year < b.year
    ∨ (a.year = b.year
        ∧ (a.month < b.month ∨ (a.month = b.month ∧ a.day < b.day)))

/-- Lexicographic less-or-equal on dates. -/
def Date.le (a b : Date) : Prop :=
  a.year < b.year
    ∨ (a.year = b.year
        ∧ (a.month < b.month ∨ (a.month = b.month ∧ a.day ≤ b.day)))

instance : LT Date := ⟨Date.lt⟩

instance : LE Date := ⟨Date.le⟩

instance (a b : Date) : Decidable (a < b) := by
  show Decidable (Date.lt a b)
  unfold Date.lt
  exact inferInstance

instance (a b : Date) : Decidable (a ≤ b) := by
  show Decidable (Date.le a b)
  unfold Date.le
  exact inferInstance

/-- Absolute month number of a date (`12 * year + (month - 1)`); the day is
ignored. -/
def monthIndex (d : Date) : ℤ := 12 * d.year + d.month - 1

/-- `d + relativedelta(months=k)` of `dateutil`: advance by `k` months,
clamping the day to the length of the target month. -/
def addMonths (d : Date) (k : ℕ) : Date :=
  let m0 : ℕ := d.month - 1 + k
  let y : ℤ := d.year + (m0 / 12 : ℕ)
  let m : ℕ := m0 % 12 + 1
  { year := y, month := m, day := min d.day (daysInMonth y m) }

/-- `d - timedelta(days=1)`. -/
def subOneDay (d : Date) : Date :=
  if 1 < d.day then { d with day := d.day - 1 }
  else if 1 < d.month then ⟨d.year, d.month - 1, daysInMonth d.year (d.month - 1)⟩
  else ⟨d.year - 1, 12, 31⟩

/-- The `while True` loop body of `periods_in_range`, with explicit fuel
(the caller supplies fuel provably larger than the number of iterations,
so the `fuel = 0` branch is never the one that stops the loop on valid
dates). -/
def periodsAux (months_per : ℕ) (the_end : Date) : ℕ → Date → List (Date × Date)
  | 0, _ => []
  | fuel + 1, cur_start =>
    let cur_end := subOneDay (addMonths cur_start months_per)
    if the_end < cur_end then []
    else (cur_start, cur_end) :: periodsAux months_per the_end fuel (addMonths cur_start 1)

/-- `RiskReport.periods_in_range` of the source.  A rolling period is
embedded as its `(start_date, end_date)` pair; the per-period metrics object
built from it (`RiskMetricsPeriod`) is an external collaborator.  The
emptiness check reads `self.algorithm_returns`, passed here explicitly. -/
def periods_in_range (algorithm_returns : List (Date × ℚ)) (months_per : ℕ)
    (start stop : Date) : List (Date × Date) :=
  let cur_start : Date := { start with day := 1 }
  if algorithm_returns.length = 0 then []
  else
    let the_end := subOneDay (addMonths { stop with day := 1 } 1)
    periodsAux months_per the_end
      (monthIndex the_end + 2 - monthIndex cur_start).toNat cur_start

/-- The four period collections a `RiskReport` carries (the creation
timestamp and the per-period metric dictionaries are external). -/
structure RiskReport where
  month_periods : List (Date × Date)
  three_month_periods : List (Date × Date)
  six_month_periods : List (Date × Date)
  year_periods : List (Date × Date)
deriving DecidableEq, Repr

/-- `RiskReport.__init__` of the source: derive the overall range from the
return series (or, when it is empty, from the simulation parameters), then
decompose it into 1/3/6/12-month rolling windows. -/
def mkRiskReport (algorithm_returns : List (Date × ℚ))
    (period_start period_end : Date) : RiskReport :=
  let start_date :=
    if algorithm_returns.length = 0 then period_start
    else (algorithm_returns.headD (period_start, 0)).1
  let end_date :=
    if algorithm_returns.length = 0 then period_end
    else (algorithm_returns.getLastD (period_end, 0)).1
  { month_periods := periods_in_range algorithm_returns 1 start_date end_date
    three_month_periods := periods_in_range algorithm_returns 3 start_date end_date
    six_month_periods := periods_in_range algorithm_returns 6 start_date end_date
    year_periods := periods_in_range algorithm_returns 12 start_date end_date }

/-! ### Concrete snapshots and collaborators used by the concrete instances -/

/-- A snapshot carrying only a 1-month rate. -/
def snapOnly1m (r : ℚ) : Snapshot :=
  fun d => match d with | .oneMonth => some r | _ => none

/-- A snapshot carrying only a 3-month rate. -/
def snapOnly3m (r : ℚ) : Snapshot :=
  fun d => match d with | .threeMonth => some r | _ => none

/-- A snapshot with no data in any bucket. -/
def snapEmpty : Snapshot := fun _ => none

/-- A trading calendar that can never determine a distance. -/
def noDistance : ℤ → ℤ → Option ℤ := fun _ _ => none

/-- A trading calendar counting whole calendar days as trading days. -/
def calDayDistance : ℤ → ℤ → Option ℤ := fun a b => some ((b - a).fdiv 86400)

/-- The inclusive upper threshold (in elapsed days) of each duration bucket
below the last: a bucket of index `> k` is selected exactly when the elapsed
day count exceeds `thresholdOf k`. -/
def thresholdOf : ℕ → ℤ
  | 0 => 31
  | 1 => 93
  | 2 => 186
  | 3 => 366
  | 4 => 365 * 2 + 1
  | 5 => 365 * 3 + 1
  | 6 => 365 * 5 + 2
  | 7 => 365 * 7 + 2
  | _ => 365 * 10 + 2

/-! ## Helper lemmas -/

theorem lookup_isSome_of_mem_keys {l : CurveTable} {a : ℤ}
    (h : a ∈ l.map Prod.fst) : (List.lookup a l).isSome := by
  induction l with
  | nil => simp at h
  | cons p t ih =>
    obtain ⟨k, v⟩ := p
    simp only [List.map_cons, List.mem_cons] at h
    by_cases ha : a = k
    · subst ha; simp [List.lookup]
    · have hmem : a ∈ t.map Prod.fst := by
        rcases h with h | h
        · exact absurd h ha
        · exact h
      have hbeq : (a == k) = false := by simp [ha]
      simpa [List.lookup, hbeq] using ih hmem

theorem mem_of_lookup_some {l : CurveTable} {a : ℤ} {s : Snapshot}
    (h : List.lookup a l = some s) : (a, s) ∈ l := by
  induction l with
  | nil => simp [List.lookup] at h
  | cons p t ih =>
    obtain ⟨k, v⟩ := p
    by_cases ha : a = k
    · subst ha
      obtain rfl : v = s := by simpa [List.lookup] using h
      exact List.mem_cons_self _ _
    · have hbeq : (a == k) = false := by simp [ha]
      simp only [List.lookup, hbeq] at h
      exact List.mem_cons_of_mem _ (ih h)

theorem get_rate_none_of_lookup_none {curves : CurveTable} {dur : TreasuryDuration} {day : ℤ}
    (h : List.lookup day curves = none) : get_treasury_rate curves dur day = none := by
  simp [get_treasury_rate, h]

/-- The duration-escalation scan starts with the requested bucket itself. -/
theorem duration_drop_cons (D : TreasuryDuration) :
    ∃ l, TREASURY_DURATIONS.drop (durationIndex D) = D :: l := by
  cases D <;> exact ⟨_, rfl⟩

theorem durationIndex_lt_ten (D : TreasuryDuration) : durationIndex D < 10 := by
  cases D <;> simp [durationIndex]

theorem durationOfIndex_durationIndex (D : TreasuryDuration) :
    durationOfIndex (durationIndex D) = D := by
  cases D <;> rfl

theorem durationIndex_durationOfIndex : ∀ n, n < 10 → durationIndex (durationOfIndex n) = n := by
  decide

theorem scanFrom_finds (curve : Snapshot) :
    ∀ n i J r, J - i ≤ n → i ≤ J → J < 10 →
      curve (durationOfIndex J) = some r →
      (∀ k, i ≤ k → k < J → curve (durationOfIndex k) = none) →
      scanFrom curve i = some r := by
  intro n
  induction n with
  | zero =>
    intro i J r hle hiJ hJ hr _hn
    have hiJ' : i = J := by omega
    subst hiJ'
    unfold scanFrom
    rw [dif_pos (by omega : i < 10), hr]
  | succ n ih =>
    intro i J r hle hiJ hJ hr hn
    unfold scanFrom
    rw [dif_pos (by omega : i < 10)]
    by_cases hij : i = J
    · subst hij; rw [hr]
    · rw [hn i le_rfl (by omega)]
      exact ih (i + 1) J r (by omega) (by omega) hJ hr fun k hk1 hk2 => hn k (by omega) hk2

theorem scan_eq_findSome (curve : Snapshot) :
    ∀ n i, 10 - i ≤ n → (TREASURY_DURATIONS.drop i).findSome? curve = scanFrom curve i := by
  intro n
  induction n with
  | zero =>
    intro i hle
    have h10 : 10 ≤ i := by omega
    rw [List.drop_eq_nil_of_le (by simp [TREASURY_DURATIONS]; omega)]
    unfold scanFrom
    rw [dif_neg (by omega)]
    rfl
  | succ n ih =>
    intro i hle
    by_cases hi : i < 10
    · have hlen : i < TREASURY_DURATIONS.length := by simp [TREASURY_DURATIONS]; omega
      rw [List.drop_eq_getElem_cons hlen]
      have hget : TREASURY_DURATIONS[i] = durationOfIndex i := by
        have hall : ∀ j, ∀ _ : j < TREASURY_DURATIONS.length,
            TREASURY_DURATIONS[j] = durationOfIndex j := by decide
        exact hall i hlen
      rw [hget]
      unfold scanFrom
      rw [dif_pos hi]
      cases hc : curve (durationOfIndex i) with
      | some r => simp [List.findSome?_cons, hc]
      | none => simpa [List.findSome?_cons, hc] using ih (i + 1) (by omega)
    · rw [List.drop_eq_nil_of_le (by simp [TREASURY_DURATIONS]; omega)]
      unfold scanFrom
      rw [dif_neg hi]
      rfl

/-- `get_treasury_rate` in terms of the index-based scan. -/
theorem get_rate_eq_scan {curves : CurveTable} {dur : TreasuryDuration} {day : ℤ}
    {snap : Snapshot} (h : List.lookup day curves = some snap) :
    get_treasury_rate curves dur day = scanFrom snap (durationIndex dur) := by
  unfold get_treasury_rate
  rw [h]
  exact scan_eq_findSome snap 10 (durationIndex dur) (by omega)

/-- A list's `takeWhile` is recovered by `take` of its length. -/
theorem takeWhile_take_eq (p : ℤ → Bool) :
    ∀ xs : List ℤ, xs.take ((xs.takeWhile p).length) = xs.takeWhile p := by
  intro xs
  induction xs with
  | nil => rfl
  | cons a t ih =>
    by_cases hp : p a
    · simp [List.takeWhile_cons, hp, ih]
    · simp [List.takeWhile_cons, hp]

/-- In a strictly sorted list, every member below the pivot survives
`takeWhile (· < v)`. -/
theorem mem_takeWhile_of_lt (v x : ℤ) :
    ∀ xs : List ℤ, xs.Pairwise (· < ·) → x ∈ xs → x < v →
      x ∈ xs.takeWhile (fun d => decide (d < v)) := by
  intro xs
  induction xs with
  | nil => intro _ hm _; simp at hm
  | cons a t ih =>
    intro hp hm hx
    rcases List.mem_cons.mp hm with rfl | hmem
    · rw [List.takeWhile_cons_of_pos (by simpa using hx)]
      exact List.mem_cons_self _ _
    · have ha : a < x := (List.pairwise_cons.mp hp).1 x hmem
      rw [List.takeWhile_cons_of_pos (by simp only [decide_eq_true_eq]; omega)]
      exact List.mem_cons_of_mem _ (ih (List.pairwise_cons.mp hp).2 hmem hx)

/-! ## Claim theorems -/

/-- Claim C4: for every curve table with a non-absent rate `r` stored at
`end_day` for the duration bucket selected by the duration selector,
`choose_treasury` returns exactly `r * (d + 1) / 365`, where `d` is the
elapsed whole-day count between start and end (simple pro-ration), and no
staleness warning is emitted. -/
theorem choose_treasury_exact_hit (tdd : ℤ → ℤ → Option ℤ) (curves : CurveTable)
    (s e : ℤ) (snap : Snapshot) (r : ℚ)
    (hlk : List.lookup (midnightOf e) curves = some snap)
    (hr : snap (select_treasury_duration s e) = some r) :
    choose_treasury tdd curves s e = ChooseResult.ok (r * (tdDays s e + 1) / 365) false := by
  have hget : get_treasury_rate curves (select_treasury_duration s e) (midnightOf e) = some r := by
    unfold get_treasury_rate
    rw [hlk]
    obtain ⟨l, hl⟩ := duration_drop_cons (select_treasury_duration s e)
    rw [hl]
    simp [List.findSome?_cons, hr]
  simp [choose_treasury, hlk, hget]

/-- Claim C4, concrete instance: a table holding a 1-month rate `3/100` at
the epoch, queried for a same-day period. -/
theorem choose_treasury_exact_hit_instance :
    choose_treasury noDistance [((0 : ℤ), snapOnly1m (3 / 100))] 0 0
      = ChooseResult.ok ((3 : ℚ) / 100 * (tdDays 0 0 + 1) / 365) false :=
  choose_treasury_exact_hit noDistance [((0 : ℤ), snapOnly1m (3 / 100))] 0 0
    (snapOnly1m (3 / 100)) (3 / 100) rfl rfl

/-- The ten mutually exclusive day-count intervals and the bucket each one
selects. -/
theorem select_cases (s e : ℤ) :
    (tdDays s e ≤ 31 ∧ select_treasury_duration s e = .oneMonth)
  ∨ (31 < tdDays s e ∧ tdDays s e ≤ 93 ∧ select_treasury_duration s e = .threeMonth)
  ∨ (93 < tdDays s e ∧ tdDays s e ≤ 186 ∧ select_treasury_duration s e = .sixMonth)
  ∨ (186 < tdDays s e ∧ tdDays s e ≤ 366 ∧ select_treasury_duration s e = .oneYear)
  ∨ (366 < tdDays s e ∧ tdDays s e ≤ 731 ∧ select_treasury_duration s e = .twoYear)
  ∨ (731 < tdDays s e ∧ tdDays s e ≤ 1096 ∧ select_treasury_duration s e = .threeYear)
  ∨ (1096 < tdDays s e ∧ tdDays s e ≤ 1827 ∧ select_treasury_duration s e = .fiveYear)
  ∨ (1827 < tdDays s e ∧ tdDays s e ≤ 2557 ∧ select_treasury_duration s e = .sevenYear)
  ∨ (2557 < tdDays s e ∧ tdDays s e ≤ 3652 ∧ select_treasury_duration s e = .tenYear)
  ∨ (3652 < tdDays s e ∧ select_treasury_duration s e = .thirtyYear) := by
  simp only [select_treasury_duration]
  split_ifs with h1 h2 h3 h4 h5 h6 h7 h8 h9
  · exact Or.inl ⟨h1, rfl⟩
  · exact Or.inr (Or.inl ⟨by omega, by omega, rfl⟩)
  · exact Or.inr (Or.inr (Or.inl ⟨by omega, by omega, rfl⟩))
  · exact Or.inr (Or.inr (Or.inr (Or.inl ⟨by omega, by omega, rfl⟩)))
  · exact Or.inr (Or.inr (Or.inr (Or.inr (Or.inl ⟨by omega, by omega, rfl⟩))))
  · exact Or.inr (Or.inr (Or.inr (Or.inr (Or.inr (Or.inl ⟨by omega, by omega, rfl⟩)))))
  · exact Or.inr (Or.inr (Or.inr (Or.inr (Or.inr (Or.inr
      (Or.inl ⟨by omega, by omega, rfl⟩))))))
  · exact Or.inr (Or.inr (Or.inr (Or.inr (Or.inr (Or.inr (Or.inr
      (Or.inl ⟨by omega, by omega, rfl⟩)))))))
  · exact Or.inr (Or.inr (Or.inr (Or.inr (Or.inr (Or.inr (Or.inr (Or.inr
      (Or.inl ⟨by omega, by omega, rfl⟩))))))))
  · exact Or.inr (Or.inr (Or.inr (Or.inr (Or.inr (Or.inr (Or.inr (Or.inr
      (Or.inr ⟨by omega, rfl⟩))))))))

/-- Monotonicity of the selected bucket index in the elapsed day count. -/
theorem select_duration_monotone (s e s2 e2 : ℤ) (h : tdDays s e ≤ tdDays s2 e2) :
    durationIndex (select_treasury_duration s e)
      ≤ durationIndex (select_treasury_duration s2 e2) := by
  rcases select_cases s e with
    ⟨ha, hA⟩ | ⟨ha, ha2, hA⟩ | ⟨ha, ha2, hA⟩ | ⟨ha, ha2, hA⟩ | ⟨ha, ha2, hA⟩ |
    ⟨ha, ha2, hA⟩ | ⟨ha, ha2, hA⟩ | ⟨ha, ha2, hA⟩ | ⟨ha, ha2, hA⟩ | ⟨ha, hA⟩ <;>
  rcases select_cases s2 e2 with
    ⟨hb, hB⟩ | ⟨hb, hb2, hB⟩ | ⟨hb, hb2, hB⟩ | ⟨hb, hb2, hB⟩ | ⟨hb, hb2, hB⟩ |
    ⟨hb, hb2, hB⟩ | ⟨hb, hb2, hB⟩ | ⟨hb, hb2, hB⟩ | ⟨hb, hb2, hB⟩ | ⟨hb, hB⟩ <;>
  rw [hA, hB] <;> simp only [durationIndex] <;> omega

/-- Claim C6: `select_treasury_duration` is a total function of the elapsed
whole-day count with the inclusive thresholds 31, 93, 186, 366, 731, 1096,
1827, 2557, 3652 (else 30-year), and the chosen bucket index is monotone in
the elapsed day count. -/
theorem select_treasury_duration_thresholds_monotone (s e : ℤ) :
    (tdDays s e ≤ 31 → select_treasury_duration s e = .oneMonth)
  ∧ (31 < tdDays s e → tdDays s e ≤ 93 → select_treasury_duration s e = .threeMonth)
  ∧ (93 < tdDays s e → tdDays s e ≤ 186 → select_treasury_duration s e = .sixMonth)
  ∧ (186 < tdDays s e → tdDays s e ≤ 366 → select_treasury_duration s e = .oneYear)
  ∧ (366 < tdDays s e → tdDays s e ≤ 731 → select_treasury_duration s e = .twoYear)
  ∧ (731 < tdDays s e → tdDays s e ≤ 1096 → select_treasury_duration s e = .threeYear)
  ∧ (1096 < tdDays s e → tdDays s e ≤ 1827 → select_treasury_duration s e = .fiveYear)
  ∧ (1827 < tdDays s e → tdDays s e ≤ 2557 → select_treasury_duration s e = .sevenYear)
  ∧ (2557 < tdDays s e → tdDays s e ≤ 3652 → select_treasury_duration s e = .tenYear)
  ∧ (3652 < tdDays s e → select_treasury_duration s e = .thirtyYear)
  ∧ (∀ s2 e2 : ℤ, tdDays s e ≤ tdDays s2 e2 →
      durationIndex (select_treasury_duration s e)
        ≤ durationIndex (select_treasury_duration s2 e2)) := by
  refine ⟨?_, ?_, ?_, ?_, ?_, ?_, ?_, ?_, ?_, ?_, ?_⟩
  case _ => intro h; simp only [select_treasury_duration]; split_ifs <;> first | rfl | omega
  case _ => intro h1 h2; simp only [select_treasury_duration]; split_ifs <;> first | rfl | omega
  case _ => intro h1 h2; simp only [select_treasury_duration]; split_ifs <;> first | rfl | omega
  case _ => intro h1 h2; simp only [select_treasury_duration]; split_ifs <;> first | rfl | omega
  case _ => intro h1 h2; simp only [select_treasury_duration]; split_ifs <;> first | rfl | omega
  case _ => intro h1 h2; simp only [select_treasury_duration]; split_ifs <;> first | rfl | omega
  case _ => intro h1 h2; simp only [select_treasury_duration]; split_ifs <;> first | rfl | omega
  case _ => intro h1 h2; simp only [select_treasury_duration]; split_ifs <;> first | rfl | omega
  case _ => intro h1 h2; simp only [select_treasury_duration]; split_ifs <;> first | rfl | omega
  case _ => intro h; simp only [select_treasury_duration]; split_ifs <;> first | rfl | omega
  case _ =>
    intro s2 e2 h
    exact select_duration_monotone s e s2 e2 h

/-- Claim C6, concrete instance: 32 elapsed days select the 3-month bucket
and monotonicity at a concrete pair of day counts. -/
theorem select_treasury_duration_instance :
    select_treasury_duration 0 (32 * 86400) = .threeMonth
    ∧ durationIndex (select_treasury_duration 0 (32 * 86400))
        ≤ durationIndex (select_treasury_duration 0 (400 * 86400)) :=
  ⟨(select_treasury_duration_thresholds_monotone 0 (32 * 86400)).2.1 (by decide) (by decide),
   (select_treasury_duration_thresholds_monotone 0
      (32 * 86400)).2.2.2.2.2.2.2.2.2.2 0 (400 * 86400) (by decide)⟩

/-- Claim C1 is violated by the code (code bug): for a curve table whose
earliest stored date (day 10) is strictly AFTER `end_day` (day 5), pandas
`searchsorted` returns 0, the Python slice `search_days[-1::-1]` walks the
WHOLE index backward from the LATEST date, and `choose_treasury` returns a
pro-rated rate taken from a later date instead of raising the
data-unavailable error.  This contradicts the code's own comments
("search for the previous day", "Find rightmost value less than or equal to
end_day") and the `assert tdd >= 0` in `search_day_distance`. -/
theorem choose_treasury_later_date_bug_eval :
    choose_treasury noDistance [((864000 : ℤ), snapOnly1m (5 / 100))] (4 * 86400) (5 * 86400)
        = ChooseResult.ok ((5 : ℚ) / 100 * (1 + 1) / 365) false
    ∧ midnightOf (5 * 86400) < (864000 : ℤ) := by
  constructor
  · have h : choose_treasury noDistance [((864000 : ℤ), snapOnly1m (5 / 100))]
        (4 * 86400) (5 * 86400)
        = ChooseResult.ok ((5 : ℚ) / 100 * (((1 : ℤ) : ℚ) + 1) / 365) false := rfl
    rw [h]
    norm_num
  · decide

/-- Claim C3: with a snapshot stored at `end_day`, the resolver returns the
rate of the first non-absent bucket scanning from the target bucket toward
longer tenors (hypotheses `hij`/`hbetween` say `j` is the first such bucket;
buckets of index below the target are never consulted), pro-rated by the
same `(days + 1) / 365` factor as an exact hit, with no staleness warning. -/
theorem choose_treasury_duration_escalation (tdd : ℤ → ℤ → Option ℤ) (curves : CurveTable)
    (s e : ℤ) (snap : Snapshot) (j : TreasuryDuration) (r : ℚ)
    (hlk : List.lookup (midnightOf e) curves = some snap)
    (hij : durationIndex (select_treasury_duration s e) ≤ durationIndex j)
    (hj : snap j = some r)
    (hbetween : ∀ k : TreasuryDuration,
      durationIndex (select_treasury_duration s e) ≤ durationIndex k →
      durationIndex k < durationIndex j → snap k = none) :
    choose_treasury tdd curves s e = ChooseResult.ok (r * (tdDays s e + 1) / 365) false := by
  have hJ10 := durationIndex_lt_ten j
  have hget : get_treasury_rate curves (select_treasury_duration s e) (midnightOf e)
      = some r := by
    rw [get_rate_eq_scan hlk]
    refine scanFrom_finds snap 10 _ (durationIndex j) r (by omega) hij hJ10 ?_ ?_
    · rw [durationOfIndex_durationIndex]; exact hj
    · intro k hk1 hk2
      have hk10 : k < 10 := by omega
      have h1 := hbetween (durationOfIndex k)
      rw [durationIndex_durationOfIndex k hk10] at h1
      exact h1 hk1 hk2
  simp [choose_treasury, hlk, hget]

/-- Claim C3, concrete instance: the 1-month bucket is absent at the
requested date, the 3-month bucket is present, and its rate is returned
pro-rated. -/
theorem choose_treasury_duration_escalation_instance :
    choose_treasury noDistance [((0 : ℤ), snapOnly3m (4 / 100))] 0 0
      = ChooseResult.ok ((4 : ℚ) / 100 * (tdDays 0 0 + 1) / 365) false :=
  choose_treasury_duration_escalation noDistance [((0 : ℤ), snapOnly3m (4 / 100))] 0 0
    (snapOnly3m (4 / 100)) .threeMonth (4 / 100) rfl (by decide) rfl (by decide)

/-- Claim C2: (a) an empty curve table, or one whose every snapshot is absent
in all ten buckets, makes `choose_treasury` fail with the data-unavailable
error carrying the requested end date and duration; (b) on a strictly
date-sorted table the error implies that no date at or before `end_day`
yields a rate by the duration-escalation scan, i.e. the error is raised only
when duration escalation and (spec-described) date regression have nothing
usable. -/
theorem choose_treasury_exhaustion (tdd : ℤ → ℤ → Option ℤ) (curves : CurveTable)
    (s e : ℤ) :
    ((curves = [] ∨ ∀ p ∈ curves, ∀ d : TreasuryDuration, p.2 d = none) →
      choose_treasury tdd curves s e
        = ChooseResult.unavailable e (select_treasury_duration s e))
  ∧ ((curves.map Prod.fst).Pairwise (· < ·) →
      choose_treasury tdd curves s e
        = ChooseResult.unavailable e (select_treasury_duration s e) →
      ∀ day ∈ curves.map Prod.fst, day ≤ midnightOf e →
        get_treasury_rate curves (select_treasury_duration s e) day = none) := by
  constructor
  · intro h
    have hall : ∀ day, get_treasury_rate curves (select_treasury_duration s e) day = none := by
      intro day
      cases hlk : List.lookup day curves with
      | none => exact get_rate_none_of_lookup_none hlk
      | some snap =>
        have hmem := mem_of_lookup_some hlk
        rcases h with h | h
        · subst h; simp at hmem
        · have hsnap : ∀ d, snap d = none := h (day, snap) hmem
          unfold get_treasury_rate
          rw [hlk]
          exact List.findSome?_eq_none_iff.mpr fun x _ => hsnap x
    have hreg : regression_search curves (select_treasury_duration s e) (midnightOf e)
        = none := by
      simp only [regression_search]
      refine List.findSome?_eq_none_iff.mpr fun x _ => ?_
      rw [hall x]
      rfl
    have h1 : (if (List.lookup (midnightOf e) curves).isSome then
        get_treasury_rate curves (select_treasury_duration s e) (midnightOf e)
      else none) = none := by
      split_ifs
      · exact hall _
      · rfl
    simp only [choose_treasury]
    rw [h1, hreg]
  · intro hsort hun day hday hle
    cases hfr : (if (List.lookup (midnightOf e) curves).isSome then
        get_treasury_rate curves (select_treasury_duration s e) (midnightOf e)
      else none) with
    | some r =>
      have hcontra : choose_treasury tdd curves s e
          = ChooseResult.ok (r * (tdDays s e + 1) / 365) false := by
        simp only [choose_treasury]
        rw [hfr]
      rw [hcontra] at hun
      exact ChooseResult.noConfusion hun
    | none =>
      cases hreg : regression_search curves (select_treasury_duration s e) (midnightOf e) with
      | some p =>
        obtain ⟨d, r⟩ := p
        have hcontra : choose_treasury tdd curves s e
            = ChooseResult.ok (r * (tdDays s e + 1) / 365)
                (stale_warning tdd (curves.map Prod.fst) e (midnightOf e) d) := by
          simp only [choose_treasury]
          rw [hfr, hreg]
        rw [hcontra] at hun
        exact ChooseResult.noConfusion hun
      | none =>
        simp only [regression_search] at hreg
        rcases eq_or_lt_of_le hle with heq | hlt
        · subst heq
          have hs := lookup_isSome_of_mem_keys hday
          rw [if_pos hs] at hfr
          exact hfr
        · have hmemtw : day ∈ (curves.map Prod.fst).takeWhile
              (fun d => decide (d < midnightOf e)) :=
            mem_takeWhile_of_lt (midnightOf e) day (curves.map Prod.fst) hsort hday hlt
          have hmem_slice : day ∈ sliceFromBackward (curves.map Prod.fst)
              (searchsortedLeft (curves.map Prod.fst) (midnightOf e)) := by
            unfold sliceFromBackward
            split_ifs with hi
            · exact List.mem_reverse.mpr hday
            · refine List.mem_reverse.mpr ?_
              unfold searchsortedLeft
              rw [takeWhile_take_eq]
              exact hmemtw
          have hx := List.findSome?_eq_none_iff.mp hreg day hmem_slice
          cases hg : get_treasury_rate curves (select_treasury_duration s e) day with
          | none => rfl
          | some r => rw [hg] at hx; exact Option.noConfusion hx

/-- Claim C2, concrete instance: a one-row table with an all-absent snapshot
fails with the data-unavailable error, and the escalation scan at that row
is empty. -/
theorem choose_treasury_exhaustion_instance :
    choose_treasury noDistance [((0 : ℤ), snapEmpty)] 0 86400
        = ChooseResult.unavailable 86400 (select_treasury_duration 0 86400)
    ∧ get_treasury_rate [((0 : ℤ), snapEmpty)] (select_treasury_duration 0 86400) 0 = none :=
  ⟨(choose_treasury_exhaustion noDistance [((0 : ℤ), snapEmpty)] 0 86400).1
      (Or.inr fun p hp d => by rw [List.mem_singleton.mp hp]; rfl),
   (choose_treasury_exhaustion noDistance [((0 : ℤ), snapEmpty)] 0 86400).2
      (by simp)
      ((choose_treasury_exhaustion noDistance [((0 : ℤ), snapEmpty)] 0 86400).1
        (Or.inr fun p hp d => by rw [List.mem_singleton.mp hp]; rfl))
      0 (by simp) (by decide)⟩

/-- Claim C7 is false as stated: the code's span check tests whether the
NORMALIZED END DAY lies between the table's first and last stored date, not
whether the matched date does.  Here the rate is resolved by regression at
day 1 (86400s), the collaborator cannot determine the distance, and the
matched date trivially lies within the table's span `[86400, 86400]` — so
the claim requires a warning — yet the code emits none, because `end_day`
(432000) exceeds the last stored date. -/
theorem stale_warning_span_check_cex :
    choose_treasury noDistance [((86400 : ℤ), snapOnly1m (3 / 100))] 0 432000
        = ChooseResult.ok ((3 : ℚ) / 100 * (5 + 1) / 365) false
    ∧ regression_search [((86400 : ℤ), snapOnly1m (3 / 100))]
        (select_treasury_duration 0 432000) (midnightOf 432000) = some (86400, 3 / 100)
    ∧ search_day_distance noDistance 432000 86400 = none
    ∧ (86400 : ℤ) ∈ ([((86400 : ℤ), snapOnly1m (3 / 100))] : CurveTable).map Prod.fst := by
  refine ⟨?_, rfl, rfl, by simp⟩
  have h : choose_treasury noDistance [((86400 : ℤ), snapOnly1m (3 / 100))] 0 432000
      = ChooseResult.ok ((3 : ℚ) / 100 * (((5 : ℤ) : ℚ) + 1) / 365) false := rfl
  rw [h]
  norm_num

/-- Claim C7, amended: when the rate is found at `end_day` itself no warning
is emitted; when it is found by date regression at day `d`, the warning flag
is true exactly when (the trading-day distance to `d` is unknown or exceeds
1) AND the normalized END DAY — not the matched date — lies within the
table's overall date span. -/
theorem stale_warning_characterization (tdd : ℤ → ℤ → Option ℤ) (curves : CurveTable)
    (s e : ℤ) :
    (∀ r, get_treasury_rate curves (select_treasury_duration s e) (midnightOf e) = some r →
      choose_treasury tdd curves s e = ChooseResult.ok (r * (tdDays s e + 1) / 365) false)
  ∧ (∀ d r lo hi,
      get_treasury_rate curves (select_treasury_duration s e) (midnightOf e) = none →
      regression_search curves (select_treasury_duration s e) (midnightOf e) = some (d, r) →
      (curves.map Prod.fst).head? = some lo →
      (curves.map Prod.fst).getLast? = some hi →
      choose_treasury tdd curves s e
        = ChooseResult.ok (r * (tdDays s e + 1) / 365)
            (stale_warning tdd (curves.map Prod.fst) e (midnightOf e) d)
      ∧ (stale_warning tdd (curves.map Prod.fst) e (midnightOf e) d = true ↔
          ((search_day_distance tdd e d = none
              ∨ ∃ k, search_day_distance tdd e d = some k ∧ 1 < k)
            ∧ lo ≤ midnightOf e ∧ midnightOf e ≤ hi))) := by
  constructor
  · intro r hr
    cases hlk : List.lookup (midnightOf e) curves with
    | none => rw [get_rate_none_of_lookup_none hlk] at hr; exact Option.noConfusion hr
    | some snap =>
      have hs : (List.lookup (midnightOf e) curves).isSome := by rw [hlk]; rfl
      simp only [choose_treasury]
      rw [if_pos hs, hr]
  · intro d r lo hi hg hreg hlo hhi
    have h1 : (if (List.lookup (midnightOf e) curves).isSome then
        get_treasury_rate curves (select_treasury_duration s e) (midnightOf e)
      else none) = none := by
      split_ifs
      · exact hg
      · rfl
    constructor
    · simp only [choose_treasury]
      rw [h1, hreg]
    · cases hdist : search_day_distance tdd e d with
      | none =>
        simp [stale_warning, hdist, List.headD_eq_head?_getD,
          List.getLastD_eq_getLast?, hlo, hhi]
      | some k =>
        simp [stale_warning, hdist, List.headD_eq_head?_getD,
          List.getLastD_eq_getLast?, hlo, hhi, and_assoc]

/-- Claim C7 (amended), concrete instance: regression matches a date three
trading days before the request, the end day lies inside the span, so the
warning fires. -/
theorem stale_warning_characterization_instance :
    (choose_treasury calDayDistance
        [((86400 : ℤ), snapOnly1m (4 / 100)), ((518400 : ℤ), snapEmpty)] 0 345600
      = ChooseResult.ok ((4 : ℚ) / 100 * (tdDays 0 345600 + 1) / 365)
          (stale_warning calDayDistance
            (([((86400 : ℤ), snapOnly1m (4 / 100)), ((518400 : ℤ), snapEmpty)]
                : CurveTable).map Prod.fst)
            345600 (midnightOf 345600) 86400))
    ∧ stale_warning calDayDistance
        (([((86400 : ℤ), snapOnly1m (4 / 100)), ((518400 : ℤ), snapEmpty)]
            : CurveTable).map Prod.fst)
        345600 (midnightOf 345600) 86400 = true :=
  ⟨((stale_warning_characterization calDayDistance
      [((86400 : ℤ), snapOnly1m (4 / 100)), ((518400 : ℤ), snapEmpty)] 0 345600).2
      86400 (4 / 100) 86400 518400 rfl rfl rfl rfl).1,
   ((stale_warning_characterization calDayDistance
      [((86400 : ℤ), snapOnly1m (4 / 100)), ((518400 : ℤ), snapEmpty)] 0 345600).2
      86400 (4 / 100) 86400 518400 rfl rfl rfl rfl).2.mpr
      ⟨Or.inr ⟨3, rfl, by omega⟩, by decide, by decide⟩⟩

/-- The filtered downside sum equals the spec's
`sum(square(min(returns - mar, 0)))` over all returns. -/
theorem downside_squares_eq_min_sum (mar : ℚ) :
    ∀ rets : List ℚ,
      downside_squares rets mar = (rets.map fun r => (min (r - mar) 0) ^ 2).sum := by
  intro rets
  induction rets with
  | nil => rfl
  | cons a t ih =>
    simp only [downside_squares] at ih ⊢
    rcases lt_or_le a mar with h | h
    · have hd : decide (a < mar) = true := by simpa using h
      have hmin : min (a - mar) 0 = a - mar := min_eq_left (by linarith)
      simp [List.filter_cons, hd, hmin, ih]
    · have hd : decide (a < mar) = false := by simpa using not_lt.mpr h
      have hmin : min (a - mar) 0 = 0 := min_eq_right (by linarith)
      simp [List.filter_cons, hd, hmin, ih]

/-- Claim C9: `sortino_ratio` returns 0 on an empty series; its downside sum
ranges over exactly the returns strictly below `mar` (equivalently, the
spec's `min(r - mar, 0)` squared summed over ALL returns) and is divided by
the TOTAL return count; the result is 0 whenever the downside deviation is
tolerantly zero — in particular whenever every return is at least `mar` —
and `(period_return - mar) / dr` otherwise. -/
theorem sortino_ratio_characterization (rets : List ℚ) (pr mar : ℚ) :
    (rets = [] → sortino_ratio rets pr mar = 0)
  ∧ downside_squares rets mar = (rets.map fun r => (min (r - mar) 0) ^ 2).sum
  ∧ (rets ≠ [] →
      tolerantly_zero_sqrt (downside_squares rets mar / (rets.length : ℚ)) = true →
      sortino_ratio rets pr mar = 0)
  ∧ (rets ≠ [] → (∀ r ∈ rets, mar ≤ r) → sortino_ratio rets pr mar = 0)
  ∧ (rets ≠ [] →
      tolerantly_zero_sqrt (downside_squares rets mar / (rets.length : ℚ)) = false →
      sortino_ratio rets pr mar
        = ((pr : ℝ) - (mar : ℝ))
            / Real.sqrt ((downside_squares rets mar / (rets.length : ℚ) : ℚ) : ℝ)) := by
  refine ⟨?_, downside_squares_eq_min_sum mar rets, ?_, ?_, ?_⟩
  · intro h
    subst h
    rfl
  · intro hne ht
    simp [sortino_ratio, List.length_eq_zero, hne, ht]
  · intro hne hge
    have hz : downside_squares rets mar = 0 := by
      have hfil : rets.filter (fun r => decide (r < mar)) = [] := by
        refine List.filter_eq_nil_iff.mpr fun a ha => ?_
        simpa using not_lt.mpr (hge a ha)
      simp [downside_squares, hfil]
    have ht : tolerantly_zero_sqrt (downside_squares rets mar / (rets.length : ℚ)) = true := by
      rw [hz]
      norm_num [tolerantly_zero_sqrt]
    simp [sortino_ratio, List.length_eq_zero, hne, ht]
  · intro hne hf
    simp [sortino_ratio, List.length_eq_zero, hne, hf]

/-- Claim C9, concrete instance: empty series; a series whose only return
lies strictly below `mar` but within tolerance (downside deviation nonzero
yet tolerantly zero, result 0); an all-above-mar series; and a genuinely
negative series. -/
theorem sortino_ratio_instance :
    sortino_ratio [] 1 0 = 0
  ∧ sortino_ratio [-(1 / 10000000)] 5 0 = 0
  ∧ sortino_ratio [1 / 2, 2] 3 0 = 0
  ∧ sortino_ratio [-1, -1] 5 0 = 5 := by
  have hds0 : downside_squares [-(1 / 10000000)] 0 = 1 / 100000000000000 := by
    norm_num [downside_squares, List.filter_cons]
  have ht0 : tolerantly_zero_sqrt
      (downside_squares [-(1 / 10000000)] 0
        / ((([-(1 / 10000000)] : List ℚ).length : ℕ) : ℚ)) = true := by
    rw [hds0]
    norm_num [tolerantly_zero_sqrt]
  have hds : downside_squares [-1, -1] 0 = 2 := by
    norm_num [downside_squares, List.filter_cons]
  have ht : tolerantly_zero_sqrt
      (downside_squares [-1, -1] 0 / ((([-1, -1] : List ℚ).length : ℕ) : ℚ)) = false := by
    rw [hds]
    norm_num [tolerantly_zero_sqrt]
  refine ⟨(sortino_ratio_characterization [] 1 0).1 rfl,
    (sortino_ratio_characterization [-(1 / 10000000)] 5 0).2.2.1 (by simp) ht0,
    (sortino_ratio_characterization [1 / 2, 2] 3 0).2.2.2.1 (by simp)
      (by intro r hr; fin_cases hr <;> norm_num), ?_⟩
  have h3 := (sortino_ratio_characterization [-1, -1] 5 0).2.2.2.2 (by simp) ht
  rw [h3, hds]
  norm_num [Real.sqrt_one]

/-! ## Calendar lemmas -/

theorem one_le_daysInMonth (y : ℤ) (m : ℕ) : 1 ≤ daysInMonth y m := by
  unfold daysInMonth
  split_ifs <;> omega

/-- Replacing the day by 1 preserves validity. -/
theorem replace_day_one_valid {d : Date} (h : d.Valid) :
    Date.Valid { d with day := 1 } := by
  obtain ⟨h1, h2, _, _⟩ := h
  exact ⟨h1, h2, le_refl 1, one_le_daysInMonth _ _⟩

theorem monthIndex_replace_day (d : Date) :
    monthIndex { d with day := 1 } = monthIndex d := rfl

theorem date_ext {a b : Date} (hy : a.year = b.year) (hm : a.month = b.month)
    (hd : a.day = b.day) : a = b := by
  cases a
  cases b
  simp_all

theorem addMonths_year (d : Date) (k : ℕ) :
    (addMonths d k).year = d.year + ((d.month - 1 + k) / 12 : ℕ) := rfl

theorem addMonths_month (d : Date) (k : ℕ) :
    (addMonths d k).month = (d.month - 1 + k) % 12 + 1 := rfl

theorem addMonths_day (d : Date) (k : ℕ) :
    (addMonths d k).day
      = min d.day (daysInMonth (addMonths d k).year (addMonths d k).month) := rfl

theorem addMonths_valid {d : Date} (h : d.Valid) (k : ℕ) :
    (addMonths d k).Valid := by
  obtain ⟨h1, h2, h3, _⟩ := h
  have hdim := one_le_daysInMonth (addMonths d k).year (addMonths d k).month
  refine ⟨?_, ?_, ?_, ?_⟩
  · rw [addMonths_month]; omega
  · rw [addMonths_month]; omega
  · rw [addMonths_day]; omega
  · rw [addMonths_day]; exact min_le_right _ _

theorem addMonths_day_one {d : Date} (h : d.day = 1) (k : ℕ) :
    (addMonths d k).day = 1 := by
  have hdim := one_le_daysInMonth (addMonths d k).year (addMonths d k).month
  rw [addMonths_day, h]
  omega

theorem monthIndex_addMonths {d : Date} (h : 1 ≤ d.month) (k : ℕ) :
    monthIndex (addMonths d k) = monthIndex d + k := by
  simp only [monthIndex, addMonths_year, addMonths_month]
  push_cast
  omega

theorem addMonths_zero {d : Date} (h : d.Valid) : addMonths d 0 = d := by
  obtain ⟨h1, h2, h3, h4⟩ := h
  have hy : (addMonths d 0).year = d.year := by
    rw [addMonths_year]
    have h0 : (d.month - 1 + 0) / 12 = 0 := by omega
    rw [h0]
    push_cast
    ring
  have hm : (addMonths d 0).month = d.month := by rw [addMonths_month]; omega
  refine date_ext hy hm ?_
  rw [addMonths_day, hy, hm]
  omega

theorem addMonths_addMonths {d : Date} (hd : d.day = 1) (hv : d.Valid) (j k : ℕ) :
    addMonths (addMonths d j) k = addMonths d (j + k) := by
  have h1 : 1 ≤ d.month := hv.1
  have hvj := addMonths_valid hv j
  have hmi : monthIndex (addMonths (addMonths d j) k)
      = monthIndex (addMonths d (j + k)) := by
    rw [monthIndex_addMonths hvj.1 k, monthIndex_addMonths h1 j,
      monthIndex_addMonths h1 (j + k)]
    push_cast
    ring
  have hvjk := addMonths_valid hvj k
  have hvk := addMonths_valid hv (j + k)
  have hdayk := addMonths_day_one (addMonths_day_one hd j) k
  have hday2 := addMonths_day_one hd (j + k)
  have hb1 := hvjk.1
  have hb2 := hvjk.2.1
  have hc1 := hvk.1
  have hc2 := hvk.2.1
  simp only [monthIndex] at hmi
  exact date_ext (by omega) (by omega) (by rw [hdayk, hday2])

/-- `subOneDay` of a first-of-month valid date is the last day of the
previous month. -/
theorem subOneDay_first {d : Date} (hd : d.day = 1) (hv : d.Valid) :
    (subOneDay d).Valid
    ∧ (subOneDay d).day = daysInMonth (subOneDay d).year (subOneDay d).month
    ∧ monthIndex (subOneDay d) = monthIndex d - 1 := by
  obtain ⟨h1, h2, h3, h4⟩ := hv
  unfold subOneDay
  rw [if_neg (by omega)]
  by_cases hm : 1 < d.month
  · rw [if_pos hm]
    refine ⟨⟨?_, ?_, ?_, ?_⟩, ?_, ?_⟩
    · show 1 ≤ d.month - 1; omega
    · show d.month - 1 ≤ 12; omega
    · show 1 ≤ daysInMonth d.year (d.month - 1); exact one_le_daysInMonth _ _
    · show daysInMonth d.year (d.month - 1) ≤ daysInMonth d.year (d.month - 1)
      exact le_refl _
    · rfl
    · show 12 * d.year + ((d.month - 1 : ℕ) : ℤ) - 1
        = (12 * d.year + (d.month : ℤ) - 1) - 1
      omega
  · rw [if_neg hm]
    have hm1 : d.month = 1 := by omega
    have h31 : daysInMonth (d.year - 1) 12 = 31 := by simp [daysInMonth]
    refine ⟨⟨?_, ?_, ?_, ?_⟩, ?_, ?_⟩
    · show (1 : ℕ) ≤ 12; omega
    · show (12 : ℕ) ≤ 12; omega
    · show (1 : ℕ) ≤ 31; omega
    · show (31 : ℕ) ≤ daysInMonth (d.year - 1) 12; rw [h31]
    · show (31 : ℕ) = daysInMonth (d.year - 1) 12; rw [h31]
    · show 12 * (d.year - 1) + ((12 : ℕ) : ℤ) - 1
        = (12 * d.year + (d.month : ℤ) - 1) - 1
      omega

/-- Comparison of two last-of-month valid dates reduces to their month
indices (strict version). -/
theorem lastOfMonth_lt_iff {a b : Date} (hav : a.Valid)
    (ha : a.day = daysInMonth a.year a.month) (hbv : b.Valid)
    (hb : b.day = daysInMonth b.year b.month) :
    a < b ↔ monthIndex a < monthIndex b := by
  obtain ⟨ha1, ha2, _, _⟩ := hav
  obtain ⟨hb1, hb2, _, _⟩ := hbv
  constructor
  · rintro (h | ⟨hy, h | ⟨hm, hd⟩⟩)
    · simp only [monthIndex]; omega
    · simp only [monthIndex]; omega
    · exfalso
      have : daysInMonth a.year a.month = daysInMonth b.year b.month := by rw [hy, hm]
      omega
  · intro h
    simp only [monthIndex] at h
    have hy : a.year ≤ b.year := by omega
    rcases eq_or_lt_of_le hy with hy2 | hy2
    · exact Or.inr ⟨hy2, Or.inl (by omega)⟩
    · exact Or.inl hy2

/-- Comparison of two last-of-month valid dates reduces to their month
indices (non-strict version). -/
theorem lastOfMonth_le_iff {a b : Date} (hav : a.Valid)
    (ha : a.day = daysInMonth a.year a.month) (hbv : b.Valid)
    (hb : b.day = daysInMonth b.year b.month) :
    a ≤ b ↔ monthIndex a ≤ monthIndex b := by
  obtain ⟨ha1, ha2, _, _⟩ := hav
  obtain ⟨hb1, hb2, _, _⟩ := hbv
  constructor
  · rintro (h | ⟨hy, h | ⟨hm, hd⟩⟩)
    · simp only [monthIndex]; omega
    · simp only [monthIndex]; omega
    · simp only [monthIndex]; omega
  · intro h
    simp only [monthIndex] at h
    have hy : a.year ≤ b.year := by omega
    rcases eq_or_lt_of_le hy with hy2 | hy2
    · by_cases hm : a.month = b.month
      · refine Or.inr ⟨hy2, Or.inr ⟨hm, ?_⟩⟩
        have : daysInMonth a.year a.month = daysInMonth b.year b.month := by rw [hy2, hm]
        omega
      · exact Or.inr ⟨hy2, Or.inl (by omega)⟩
    · exact Or.inl hy2

/-- Master description of the `periods_in_range` loop: starting from a valid
first-of-month date, with the stop marker a valid last-of-month date and
enough fuel, the loop emits exactly one window per month index `k` from 0 to
`monthIndex te - monthIndex cs - m + 1`. -/
theorem periodsAux_eq (m : ℕ) (te : Date) (hteV : te.Valid)
    (hteL : te.day = daysInMonth te.year te.month) :
    ∀ fuel cs, cs.Valid → cs.day = 1 →
      (monthIndex te - monthIndex cs - m + 2).toNat ≤ fuel →
      periodsAux m te fuel cs
        = (List.range (monthIndex te - monthIndex cs - m + 2).toNat).map
            fun k => (addMonths cs k, subOneDay (addMonths cs (k + m))) := by
  intro fuel
  induction fuel with
  | zero =>
    intro cs hV h1 hle
    have h0 : (monthIndex te - monthIndex cs - m + 2).toNat = 0 := by omega
    rw [h0]
    rfl
  | succ fuel ih =>
    intro cs hV h1 hle
    have hAv := addMonths_valid hV m
    have hAd := addMonths_day_one h1 m
    obtain ⟨hceV, hceL, hceI⟩ := subOneDay_first hAd hAv
    have hmiA : monthIndex (addMonths cs m) = monthIndex cs + m :=
      monthIndex_addMonths hV.1 m
    have hlt : (te < subOneDay (addMonths cs m)) ↔
        monthIndex te < monthIndex cs + m - 1 := by
      rw [lastOfMonth_lt_iff hteV hteL hceV hceL, hceI, hmiA]
    show (if te < subOneDay (addMonths cs m) then []
      else (cs, subOneDay (addMonths cs m)) :: periodsAux m te fuel (addMonths cs 1)) = _
    by_cases hc : te < subOneDay (addMonths cs m)
    · rw [if_pos hc]
      have h0 : (monthIndex te - monthIndex cs - m + 2).toNat = 0 := by
        rw [hlt] at hc
        omega
      rw [h0]
      rfl
    · rw [if_neg hc]
      rw [hlt] at hc
      have hcs1V := addMonths_valid hV 1
      have hcs1d := addMonths_day_one h1 1
      have hmi1 : monthIndex (addMonths cs 1) = monthIndex cs + 1 :=
        monthIndex_addMonths hV.1 1
      have hrec := ih (addMonths cs 1) hcs1V hcs1d (by rw [hmi1]; omega)
      rw [hrec]
      have hn : (monthIndex te - monthIndex cs - m + 2).toNat
          = (monthIndex te - monthIndex (addMonths cs 1) - m + 2).toNat + 1 := by
        rw [hmi1]
        omega
      rw [hn, List.range_succ_eq_map, List.map_cons, List.map_map]
      have hhead : ((0 : ℕ) + m) = m := Nat.zero_add m
      congr 1
      · rw [hhead, addMonths_zero hV]
      · refine List.map_congr_left fun k _ => ?_
        simp only [Function.comp_apply]
        rw [addMonths_addMonths h1 hV 1 k, addMonths_addMonths h1 hV 1 (k + m)]
        have e1 : 1 + k = k + 1 := by omega
        have e2 : 1 + (k + m) = k + 1 + m := by omega
        rw [e1, e2]

/-- Closed form of `periods_in_range` for a nonempty return series and valid
bounds. -/
theorem periods_in_range_eq (rets : List (Date × ℚ)) (m : ℕ) (start stop : Date)
    (hne : rets ≠ []) (hs : start.Valid) (he : stop.Valid) :
    periods_in_range rets m start stop
      = (List.range (monthIndex stop - monthIndex start - m + 2).toNat).map
          fun k => (addMonths { start with day := 1 } k,
                    subOneDay (addMonths { start with day := 1 } (k + m))) := by
  have hcsV : Date.Valid { start with day := 1 } := replace_day_one_valid hs
  have hstopV : Date.Valid { stop with day := 1 } := replace_day_one_valid he
  have hAd : (addMonths { stop with day := 1 } 1).day = 1 := addMonths_day_one rfl 1
  have hAv := addMonths_valid hstopV 1
  obtain ⟨hteV, hteL, hteI⟩ := subOneDay_first hAd hAv
  have hmiA : monthIndex (addMonths { stop with day := 1 } 1) = monthIndex stop + 1 := by
    rw [monthIndex_addMonths hstopV.1 1, monthIndex_replace_day]
    norm_num
  have hteI2 : monthIndex (subOneDay (addMonths { stop with day := 1 } 1))
      = monthIndex stop := by
    rw [hteI, hmiA]
    ring
  have hlen : ¬ rets.length = 0 := by simpa [List.length_eq_zero] using hne
  simp only [periods_in_range]
  rw [if_neg hlen]
  rw [periodsAux_eq m _ hteV hteL _ _ hcsV rfl (by omega)]
  rw [hteI2, monthIndex_replace_day]

/-- Claim C10: for a nonempty return series, `periods_in_range` yields
exactly `max 0 (N - m + 1)` windows, `N` being the number of calendar months
from the start month through the stop month inclusive, and the `k`-th window
starts on the first day of the month `k` months after the start month. -/
theorem periods_in_range_count_and_starts (rets : List (Date × ℚ)) (m : ℕ)
    (start stop : Date) (hne : rets ≠ []) (hm : 1 ≤ m)
    (hs : start.Valid) (he : stop.Valid) :
    (periods_in_range rets m start stop).length
      = ((monthIndex stop - monthIndex start + 1) - m + 1).toNat
  ∧ ∀ k, k < (periods_in_range rets m start stop).length →
      (periods_in_range rets m start stop)[k]?
        = some (addMonths { start with day := 1 } k,
                subOneDay (addMonths { start with day := 1 } (k + m))) := by
  have heq := periods_in_range_eq rets m start stop hne hs he
  constructor
  · rw [heq]
    simp only [List.length_map, List.length_range]
    congr 1
    omega
  · intro k hk
    rw [heq] at hk ⊢
    simp only [List.length_map, List.length_range] at hk
    simp [List.getElem?_map, List.getElem?_range, hk]

/-- Claim C10, concrete instance: a mid-month January-to-June series with
3-month windows yields 4 windows, the second starting 1 month after
January. -/
theorem periods_in_range_count_instance :
    (periods_in_range [((⟨2020, 1, 15⟩ : Date), (0 : ℚ))] 3 ⟨2020, 1, 15⟩ ⟨2020, 6, 10⟩).length
      = ((monthIndex ⟨2020, 6, 10⟩ - monthIndex ⟨2020, 1, 15⟩ + 1) - 3 + 1).toNat
    ∧ (periods_in_range [((⟨2020, 1, 15⟩ : Date), (0 : ℚ))] 3 ⟨2020, 1, 15⟩ ⟨2020, 6, 10⟩)[1]?
      = some (addMonths { (⟨2020, 1, 15⟩ : Date) with day := 1 } 1,
              subOneDay (addMonths { (⟨2020, 1, 15⟩ : Date) with day := 1 } (1 + 3))) :=
  ⟨(periods_in_range_count_and_starts [((⟨2020, 1, 15⟩ : Date), (0 : ℚ))] 3
      ⟨2020, 1, 15⟩ ⟨2020, 6, 10⟩ (by simp) (by omega) (by decide) (by decide)).1,
   (periods_in_range_count_and_starts [((⟨2020, 1, 15⟩ : Date), (0 : ℚ))] 3
      ⟨2020, 1, 15⟩ ⟨2020, 6, 10⟩ (by simp) (by omega) (by decide) (by decide)).2
      1 (by decide)⟩

/-- Claim C5: every emitted window starts on the first day of a calendar
month and ends on the last day of a calendar month, consecutive windows'
starts differ by exactly one month (ascending), and no window's end exceeds
the last day of the month containing the series' final date. -/
theorem periods_in_range_calendar_invariants (rets : List (Date × ℚ)) (m : ℕ)
    (start stop : Date) (hne : rets ≠ []) (hs : start.Valid) (he : stop.Valid) :
    (∀ p ∈ periods_in_range rets m start stop, p.1.day = 1 ∧ p.1.Valid)
  ∧ (∀ p ∈ periods_in_range rets m start stop,
      p.2.Valid ∧ p.2.day = daysInMonth p.2.year p.2.month)
  ∧ List.Chain' (fun p q => q.1 = addMonths p.1 1) (periods_in_range rets m start stop)
  ∧ (∀ p ∈ periods_in_range rets m start stop,
      p.2 ≤ subOneDay (addMonths { stop with day := 1 } 1)) := by
  have heq := periods_in_range_eq rets m start stop hne hs he
  have hcsV : Date.Valid { start with day := 1 } := replace_day_one_valid hs
  have hstopV : Date.Valid { stop with day := 1 } := replace_day_one_valid he
  have hAd : (addMonths { stop with day := 1 } 1).day = 1 := addMonths_day_one rfl 1
  have hAv := addMonths_valid hstopV 1
  obtain ⟨hteV, hteL, hteI⟩ := subOneDay_first hAd hAv
  have hmiA : monthIndex (addMonths { stop with day := 1 } 1) = monthIndex stop + 1 := by
    rw [monthIndex_addMonths hstopV.1 1, monthIndex_replace_day]
    norm_num
  have hteI2 : monthIndex (subOneDay (addMonths { stop with day := 1 } 1))
      = monthIndex stop := by
    rw [hteI, hmiA]
    ring
  refine ⟨?_, ?_, ?_, ?_⟩
  · intro p hp
    rw [heq] at hp
    obtain ⟨k, _, rfl⟩ := List.mem_map.mp hp
    exact ⟨addMonths_day_one rfl k, addMonths_valid hcsV k⟩
  · intro p hp
    rw [heq] at hp
    obtain ⟨k, _, rfl⟩ := List.mem_map.mp hp
    obtain ⟨hv2, hl2, _⟩ :=
      subOneDay_first (addMonths_day_one rfl (k + m)) (addMonths_valid hcsV (k + m))
    exact ⟨hv2, hl2⟩
  · rw [heq, List.chain'_map]
    cases hn : (monthIndex stop - monthIndex start - m + 2).toNat with
    | zero => simp
    | succ n =>
      rw [List.chain'_range_succ]
      intro i _
      show addMonths { start with day := 1 } (i + 1)
        = addMonths (addMonths { start with day := 1 } i) 1
      rw [addMonths_addMonths rfl hcsV i 1]
  · intro p hp
    rw [heq] at hp
    obtain ⟨k, hk, rfl⟩ := List.mem_map.mp hp
    obtain ⟨hv2, hl2, hi2⟩ :=
      subOneDay_first (addMonths_day_one rfl (k + m)) (addMonths_valid hcsV (k + m))
    refine (lastOfMonth_le_iff hv2 hl2 hteV hteL).mpr ?_
    rw [hi2, monthIndex_addMonths hcsV.1 (k + m), hteI2, monthIndex_replace_day]
    have hkr := List.mem_range.mp hk
    push_cast
    omega

/-- Claim C5, concrete instance: the 3-month windows over a
January-to-June 2020 series form a one-month-stride chain and the first
window's end does not exceed the last day of June. -/
theorem periods_in_range_invariants_instance :
    List.Chain' (fun p q => q.1 = addMonths p.1 1)
      (periods_in_range [((⟨2020, 1, 15⟩ : Date), (0 : ℚ))] 3 ⟨2020, 1, 15⟩ ⟨2020, 6, 10⟩)
    ∧ ((⟨2020, 3, 31⟩ : Date)
        ≤ subOneDay (addMonths { (⟨2020, 6, 10⟩ : Date) with day := 1 } 1)) :=
  ⟨(periods_in_range_calendar_invariants [((⟨2020, 1, 15⟩ : Date), (0 : ℚ))] 3
      ⟨2020, 1, 15⟩ ⟨2020, 6, 10⟩ (by simp) (by decide) (by decide)).2.2.1,
   (periods_in_range_calendar_invariants [((⟨2020, 1, 15⟩ : Date), (0 : ℚ))] 3
      ⟨2020, 1, 15⟩ ⟨2020, 6, 10⟩ (by simp) (by decide) (by decide)).2.2.2
      ((⟨2020, 1, 1⟩ : Date), (⟨2020, 3, 31⟩ : Date)) (by decide)⟩

/-- Claim C8: an empty return series produces an empty window sequence for
every window length and bounds, and the resulting report holds four empty
period collections instead of failing. -/
theorem periods_in_range_empty_returns :
    (∀ (m : ℕ) (s e : Date), periods_in_range [] m s e = [])
  ∧ ∀ ps pe : Date,
      mkRiskReport [] ps pe
        = { month_periods := [], three_month_periods := [],
            six_month_periods := [], year_periods := [] } :=
  ⟨fun _ _ _ => rfl, fun _ _ => rfl⟩

end ZiplineRisk
